import Mathlib

/-!
Shallow embedding of the codeed backend (Go side) for verification.

The embedding models the MongoDB-backed repositories as pure functions over
an explicit store (a list of records standing for the documents of a
collection).  MongoDB single-document operations are translated as follows:

* `FindOne {_id: x}`                  → `List.find?` on the id field;
* `UpdateOne {_id: x} {$set: m}`      → update of the first id match
  (`updateFirst`); `MatchedCount == 0` corresponds to no id match, and for
  `DeleteByID` (which inspects `ModifiedCount`) a match whose set value is
  already the written value counts as unmodified;
* `DeleteOne {_id: x}`                → removal of the first id match
  (`deleteFirst`); `DeletedCount == 0` corresponds to no id match;
* `InsertOne`                         → appending to the list.

Object ids are modelled as `Nat`, `time.Time` instants and `time.Duration`
values as `Int` (nanoseconds), Go `int` fields as `Int`, and nullable
timestamps (`*time.Time`) as `Option Int`.  Randomly generated values
(fresh object ids, random digit codes, the current time) are passed in as
explicit parameters.
-/

deriving instance DecidableEq for Except

namespace Codeed

/-! Generic list helpers standing for Mongo UpdateOne / DeleteOne. -/

/-- Apply `f` to the first element satisfying `p`, leaving the rest unchanged
(the effect of a Mongo `UpdateOne`). -/
def updateFirst (p : α → Bool) (f : α → α) : List α → List α
  | [] => []
  | x :: xs => if p x then f x :: xs else x :: updateFirst p f xs

/-- Remove the first element satisfying `p` (the effect of a Mongo
`DeleteOne`). -/
def deleteFirst (p : α → Bool) : List α → List α
  | [] => []
  | x :: xs => if p x then xs else x :: deleteFirst p xs

/-! Auth attempt data model, from backend/internal/auth/model.go. -/

/-- AuthType from model.go: the channel used for the attempt. -/
inductive AuthType
  | telegram
  | email
deriving DecidableEq, Repr

/-- AttemptTTL from model.go: 5 * time.Minute, in nanoseconds. -/
def AttemptTTL : Int := 5 * 60 * 1000000000

/-- MaxAttempts from model.go. -/
def MaxAttempts : Int := 3

/-- CodeLength from model.go. -/
def CodeLength : Nat := 6

/-- AuthAttempt from model.go. -/
structure AuthAttempt where
  id : Nat
  identifierUsed : String
  typ : AuthType
  code : String
  success : Bool
  attemptLeft : Int
  ttl : Int
  createdAt : Int
  updatedAt : Int
deriving DecidableEq, Repr

/-- CreateTelegramCodeRequestDTO from model.go. -/
structure CreateTelegramCodeRequestDTO where
  telegramUsername : String
deriving DecidableEq, Repr

/-- ReadTelegramCodeRequestDTO from model.go: the public issuance view. -/
structure ReadTelegramCodeRequestDTO where
  telegramUsername : String
  id : Nat
  waitUntil : Int
deriving DecidableEq, Repr

/-- CreateCheckTelegramCodeRequestDTO from model.go. -/
structure CreateCheckTelegramCodeRequestDTO where
  id : Nat
  telegramUsername : String
  code : String
deriving DecidableEq, Repr

/-- UpdateAuthAttemptDTO from model.go. -/
structure UpdateAuthAttemptDTO where
  success : Bool
  attemptLeft : Option Int
deriving DecidableEq, Repr

/-- Error kinds of the auth service and repository (service.go and
mongo_repository.go sentinel errors). -/
inductive AuthError
  | notFound
  | alreadyExists
  | wrongTelegramUsername
  | invalidCode
  | userNotFound
deriving DecidableEq, Repr

/-- ToReadTelegramCodeRequestDTO from model.go: WaitUntil = CreatedAt + TTL. -/
def AuthAttempt.toReadTelegramCodeRequestDTO (u : AuthAttempt) : ReadTelegramCodeRequestDTO :=
  { id := u.id
    telegramUsername := u.identifierUsed
    waitUntil := u.createdAt + u.ttl }

/-- ToAuthAttemptFromCreateTelegramCodeRequestDTO from model.go.  The fresh
object id, random digit code and current time are explicit parameters. -/
def CreateTelegramCodeRequestDTO.toAuthAttempt
    (dto : CreateTelegramCodeRequestDTO) (newId : Nat) (code : String) (now : Int) : AuthAttempt :=
  { id := newId
    identifierUsed := dto.telegramUsername
    typ := AuthType.telegram
    code := code
    success := false
    ttl := AttemptTTL
    attemptLeft := MaxAttempts
    createdAt := now
    updatedAt := now }

/-! Auth attempt repository, from backend/internal/auth/mongo_repository.go. -/

/-- GetByID from mongo_repository.go: FindOne on the id. -/
def authGetByID (s : List AuthAttempt) (id : Nat) : Except AuthError AuthAttempt :=
  match s.find? (fun a => a.id == id) with
  | some a => Except.ok a
  | none => Except.error AuthError.notFound

/-- The `$set` document built by Update in mongo_repository.go, applied to a
record: `success` is written only when the Success flag of the DTO is true,
`attempt_left` only when the pointer is non-nil, and `updated_at` whenever the
set document is non-empty. -/
def applyAuthUpdate (dto : UpdateAuthAttemptDTO) (now : Int) (a : AuthAttempt) : AuthAttempt :=
  { a with
    success := if dto.success then true else a.success
    attemptLeft := dto.attemptLeft.getD a.attemptLeft
    updatedAt := now }

/-- Update from mongo_repository.go: an empty set document is a successful
no-op; otherwise UpdateOne on the id, with `MatchedCount == 0` reported as
not-found. -/
def authUpdate (s : List AuthAttempt) (id : Nat) (dto : UpdateAuthAttemptDTO) (now : Int) :
    Except AuthError (List AuthAttempt) :=
  if dto.success = false ∧ dto.attemptLeft = none then
    Except.ok s
  else if s.any (fun a => a.id == id) then
    Except.ok (updateFirst (fun a => a.id == id) (applyAuthUpdate dto now) s)
  else
    Except.error AuthError.notFound

/-- Delete from mongo_repository.go: DeleteOne on the id, with
`DeletedCount == 0` reported as not-found. -/
def authDelete (s : List AuthAttempt) (id : Nat) : Except AuthError (List AuthAttempt) :=
  if s.any (fun a => a.id == id) then
    Except.ok (deleteFirst (fun a => a.id == id) s)
  else
    Except.error AuthError.notFound

/-- The validity filter of GetByTelegramUsername in mongo_repository.go:
identifier match, Telegram type, attempts remaining, created within the TTL
window. -/
def isValidAttemptFor (username : String) (now : Int) (a : AuthAttempt) : Bool :=
  a.identifierUsed == username &&
  a.typ == AuthType.telegram &&
  decide (0 < a.attemptLeft) &&
  decide (now - AttemptTTL ≤ a.createdAt)

/-- The `created_at` descending sort of GetByTelegramUsername, expressed as a
selection of the most recently created candidate. -/
def chooseLatest (acc : Option AuthAttempt) (a : AuthAttempt) : Option AuthAttempt :=
  match acc with
  | none => some a
  | some b => if b.createdAt < a.createdAt then some a else some b

/-- GetByTelegramUsername from mongo_repository.go: FindOne under the validity
filter, sorted by `created_at` descending (the most recent valid attempt). -/
def getByTelegramUsername (s : List AuthAttempt) (username : String) (now : Int) :
    Option AuthAttempt :=
  (s.filter (isValidAttemptFor username now)).foldl chooseLatest none

/-! Auth service, from backend/internal/auth/service.go. -/

/-- A persistence write or delete issued against the auth-attempt store. -/
inductive WriteOp
  | update : Nat → UpdateAuthAttemptDTO → WriteOp
  | delete : Nat → WriteOp
deriving DecidableEq, Repr

/-- Config fields used by generateTokenPair (backend/internal/config). -/
structure Config where
  accessTokenSecret : String
  refreshTokenSecret : String
  accessTokenExpires : Int
  refreshTokenExpires : Int
deriving DecidableEq, Repr

/-- Abstract view of a signed token produced by utils.CreateToken: the signing
secret, the subject (user id) and the expiry duration determine it. -/
structure Token where
  secret : String
  subject : Nat
  expires : Int
deriving DecidableEq, Repr

/-- TokenPairDTO from model.go. -/
structure TokenPairDTO where
  accessToken : Token
  refreshToken : Token
deriving DecidableEq, Repr

/-- generateTokenPair from service.go: two independent tokens from the two
configured secrets and expiry durations. -/
def generateTokenPair (cfg : Config) (userId : Nat) : TokenPairDTO :=
  { accessToken := { secret := cfg.accessTokenSecret, subject := userId, expires := cfg.accessTokenExpires }
    refreshToken := { secret := cfg.refreshTokenSecret, subject := userId, expires := cfg.refreshTokenExpires } }

/-- RequestTelegramCode from service.go: reject when a valid attempt exists,
otherwise create and insert a fresh attempt and return its public view. -/
def requestTelegramCode (s : List AuthAttempt) (dto : CreateTelegramCodeRequestDTO)
    (newId : Nat) (code : String) (now : Int) :
    Except AuthError ReadTelegramCodeRequestDTO × List AuthAttempt :=
  match getByTelegramUsername s dto.telegramUsername now with
  | some _ => (Except.error AuthError.alreadyExists, s)
  | none =>
      let attempt := dto.toAuthAttempt newId code now
      (Except.ok attempt.toReadTelegramCodeRequestDTO, s ++ [attempt])

/-- performCodeCheck from service.go.  Returns the result, the store after the
call, and the list of persistence writes and deletes issued against the
auth-attempt store. -/
def performCodeCheck (s : List AuthAttempt) (attempt : AuthAttempt) (code : String) (now : Int) :
    Except AuthError Unit × List AuthAttempt × List WriteOp :=
  if attempt.attemptLeft ≤ 0 then
    (Except.error AuthError.invalidCode, s, [])
  else if attempt.code = code then
    let dto : UpdateAuthAttemptDTO := { success := true, attemptLeft := none }
    match authUpdate s attempt.id dto now with
    | Except.ok s2 => (Except.ok (), s2, [WriteOp.update attempt.id dto])
    | Except.error e => (Except.error e, s, [WriteOp.update attempt.id dto])
  else
    let left := attempt.attemptLeft - 1
    if left = 0 then
      match authDelete s attempt.id with
      | Except.ok s2 => (Except.error AuthError.invalidCode, s2, [WriteOp.delete attempt.id])
      | Except.error e => (Except.error e, s, [WriteOp.delete attempt.id])
    else
      let dto : UpdateAuthAttemptDTO := { success := false, attemptLeft := some left }
      match authUpdate s attempt.id dto now with
      | Except.ok s2 => (Except.error AuthError.invalidCode, s2, [WriteOp.update attempt.id dto])
      | Except.error e => (Except.error e, s, [WriteOp.update attempt.id dto])

/-- CheckTelegramCode from service.go: fetch by id, check the identifier,
run performCodeCheck, then look the user up and issue the token pair.
`userLookup` stands for userService.GetUserByTelegramUsername. -/
def checkTelegramCode (s : List AuthAttempt) (dto : CreateCheckTelegramCodeRequestDTO)
    (now : Int) (userLookup : String → Option Nat) (cfg : Config) :
    Except AuthError TokenPairDTO × List AuthAttempt × List WriteOp :=
  match authGetByID s dto.id with
  | Except.error e => (Except.error e, s, [])
  | Except.ok attempt =>
    if attempt.identifierUsed ≠ dto.telegramUsername then
      (Except.error AuthError.wrongTelegramUsername, s, [])
    else
      match performCodeCheck s attempt dto.code now with
      | (Except.error e, s2, ops) => (Except.error e, s2, ops)
      | (Except.ok _, s2, ops) =>
        match userLookup dto.telegramUsername with
        | none => (Except.error AuthError.userNotFound, s2, ops)
        | some uid => (Except.ok (generateTokenPair cfg uid), s2, ops)

/-! Article data model, from backend/internal/articles/repository.go. -/

/-- Article model from repository.go. -/
structure Article where
  id : Nat
  courseId : Nat
  title : String
  contentMD : String
  contentTxt : String
  order : Int
  version : Int
  tags : List String
  isDraft : Bool
  createdAt : Int
  updatedAt : Int
  deletedAt : Option Int
deriving DecidableEq, Repr

/-- ReadArticleDTO from repository.go (timestamps kept as instants; the RFC3339
rendering of the Go code is injective on them). -/
structure ReadArticleDTO where
  id : Nat
  courseId : Nat
  title : String
  contentMD : String
  contentTxt : String
  order : Int
  version : Int
  tags : List String
  isDraft : Bool
  createdAt : Int
  updatedAt : Int
deriving DecidableEq, Repr

/-- FilterArticlesDTO from repository.go.  The Find implementation uses only
the course id, draft flag and tags; title and version are carried but unused
there. -/
structure FilterArticlesDTO where
  courseId : Option Nat
  title : Option String
  tags : List String
  isDraft : Option Bool
  version : Option Int
deriving DecidableEq, Repr

/-- Error kind of the article repository (ErrArticleNotFound). -/
inductive ArticleError
  | notFound
deriving DecidableEq, Repr

/-- ToReadDTO from repository.go. -/
def Article.toReadDTO (a : Article) : ReadArticleDTO :=
  { id := a.id
    courseId := a.courseId
    title := a.title
    contentMD := a.contentMD
    contentTxt := a.contentTxt
    order := a.order
    version := a.version
    tags := a.tags
    isDraft := a.isDraft
    createdAt := a.createdAt
    updatedAt := a.updatedAt }

/-- GetByID of the article repository: FindOne on the id with soft-deleted
documents excluded (`deleted_at` must not exist). -/
def articleGetByID (s : List Article) (id : Nat) : Except ArticleError ReadArticleDTO :=
  match s.find? (fun a => a.id == id && a.deletedAt == none) with
  | some a => Except.ok a.toReadDTO
  | none => Except.error ArticleError.notFound

/-- The Find filter of the article repository: never-deleted documents,
optionally restricted by course id, draft flag, and tag membership (`$in`). -/
def Article.matchesFind (f : FilterArticlesDTO) (a : Article) : Bool :=
  a.deletedAt == none &&
  (match f.courseId with
   | none => true
   | some c => a.courseId == c) &&
  (match f.isDraft with
   | none => true
   | some d => a.isDraft == d) &&
  (if f.tags.isEmpty then true else f.tags.any (fun t => a.tags.contains t))

/-- Find of the article repository. -/
def articleFind (s : List Article) (f : FilterArticlesDTO) : List ReadArticleDTO :=
  (s.filter (Article.matchesFind f)).map Article.toReadDTO

/-- DeleteByID of the article repository: UpdateOne on the id setting
`deleted_at` to the current time, with `ModifiedCount == 0` reported as
not-found (no id match, or the set value already stored). -/
def articleDeleteByID (s : List Article) (id : Nat) (now : Int) :
    Except ArticleError (List Article) :=
  match s.find? (fun a => a.id == id) with
  | none => Except.error ArticleError.notFound
  | some a =>
    if a.deletedAt == some now then
      Except.error ArticleError.notFound
    else
      Except.ok (updateFirst (fun b => b.id == id) (fun b => { b with deletedAt := some now }) s)

/-- CloneWithIncrementedVersion of the article repository: fetch the original
(excluding soft-deleted), find the latest non-deleted sibling version with the
same course and title (zero when none decodes), and insert a copy with a fresh
id, version `max original latest + 1`, fresh timestamps and a cleared
`deleted_at`.  The fresh object id and current time are explicit parameters. -/
def cloneWithIncrementedVersion (s : List Article) (id : Nat) (newId : Nat) (now : Int) :
    Except ArticleError (List Article × ReadArticleDTO) :=
  match s.find? (fun a => a.id == id && a.deletedAt == none) with
  | none => Except.error ArticleError.notFound
  | some original =>
    let siblingVersions :=
      ((s.filter (fun a =>
          a.courseId == original.courseId &&
          a.title == original.title &&
          a.deletedAt == none)).map Article.version)
    let latestVersion :=
      match siblingVersions with
      | [] => 0
      | v :: vs => vs.foldl max v
    let clone : Article :=
      { original with
        id := newId
        version := max original.version latestVersion + 1
        createdAt := now
        updatedAt := now
        deletedAt := none }
    Except.ok (s ++ [clone], clone.toReadDTO)

/-! Course data model, from backend/internal/courses. -/

/-- Course model from the courses package. -/
structure Course where
  id : Nat
  title : String
  description : String
  authorId : Nat
  tags : List String
  isPublished : Bool
  createdAt : Int
  updatedAt : Int
  deletedAt : Option Int
deriving DecidableEq, Repr

/-- ReadCourseDTO from the courses package (timestamps kept as instants). -/
structure ReadCourseDTO where
  id : Nat
  title : String
  description : String
  authorId : Nat
  tags : List String
  isPublished : Bool
  createdAt : Int
  updatedAt : Int
deriving DecidableEq, Repr

/-- FilterCoursesDTO from the courses package. -/
structure FilterCoursesDTO where
  title : Option String
  tags : List String
  isPublished : Option Bool
  authorId : Option Nat
deriving DecidableEq, Repr

/-- Error kind of the course repository (ErrCourseNotFound). -/
inductive CourseError
  | notFound
deriving DecidableEq, Repr

/-- ToReadDTO from the courses package. -/
def Course.toReadDTO (c : Course) : ReadCourseDTO :=
  { id := c.id
    title := c.title
    description := c.description
    authorId := c.authorId
    tags := c.tags
    isPublished := c.isPublished
    createdAt := c.createdAt
    updatedAt := c.updatedAt }

/-- Case-insensitive substring containment, modelling the case-insensitive
regex title filter of courses Find with a literal pattern. -/
def lowerContains (hay pat : String) : Bool :=
  let h := hay.toLower.data
  let p := pat.toLower.data
  (List.range (h.length + 1)).any (fun i => p.isPrefixOf (h.drop i))

/-- GetByID of the course repository: FindOne on the id with soft-deleted
documents excluded. -/
def courseGetByID (s : List Course) (id : Nat) : Except CourseError ReadCourseDTO :=
  match s.find? (fun c => c.id == id && c.deletedAt == none) with
  | some c => Except.ok c.toReadDTO
  | none => Except.error CourseError.notFound

/-- The Find filter of the course repository: never-deleted documents,
optionally restricted by a non-empty case-insensitive title pattern, tag
membership, publication status and author id. -/
def Course.matchesFind (f : FilterCoursesDTO) (c : Course) : Bool :=
  c.deletedAt == none &&
  (match f.title with
   | none => true
   | some t => if t == "" then true else lowerContains c.title t) &&
  (if f.tags.isEmpty then true else f.tags.any (fun t => c.tags.contains t)) &&
  (match f.isPublished with
   | none => true
   | some p => c.isPublished == p) &&
  (match f.authorId with
   | none => true
   | some aid => c.authorId == aid)

/-- Find of the course repository. -/
def courseFind (s : List Course) (f : FilterCoursesDTO) : List ReadCourseDTO :=
  (s.filter (Course.matchesFind f)).map Course.toReadDTO

/-- DeleteByID of the course repository: UpdateOne on the id setting
`deleted_at` to the current time, with `ModifiedCount == 0` reported as
not-found. -/
def courseDeleteByID (s : List Course) (id : Nat) (now : Int) :
    Except CourseError (List Course) :=
  match s.find? (fun c => c.id == id) with
  | none => Except.error CourseError.notFound
  | some c =>
    if c.deletedAt == some now then
      Except.error CourseError.notFound
    else
      Except.ok (updateFirst (fun b => b.id == id) (fun b => { b with deletedAt := some now }) s)

/-- A sequence of repository Update calls against the auth-attempt store: each
call is an id, an update DTO and a write time; a failed call leaves the store
unchanged. -/
def applyUpdateCalls (s : List AuthAttempt) (calls : List (Nat × UpdateAuthAttemptDTO × Int)) :
    List AuthAttempt :=
  calls.foldl
    (fun st c =>
      match authUpdate st c.1 c.2.1 c.2.2 with
      | Except.ok st2 => st2
      | Except.error _ => st)
    s

/-- Per-record success monotonicity: every record of the second store descends
from a record of the first store with the same id whose success flag was not
above it (a true flag never becomes false). -/
def SuccessDescends (s s2 : List AuthAttempt) : Prop :=
  ∀ b ∈ s2, ∃ a ∈ s, a.id = b.id ∧ (a.success = true → b.success = true)

/-! Concrete fixtures used by the closed checks below. -/

/-- Fixture: a pending Telegram auth attempt. -/
def attAlice : AuthAttempt :=
  { id := 1, identifierUsed := "alice", typ := AuthType.telegram, code := "123456",
    success := false, attemptLeft := 3, ttl := AttemptTTL, createdAt := 0, updatedAt := 0 }

/-- Fixture: a configuration. -/
def cfgFix : Config :=
  { accessTokenSecret := "as", refreshTokenSecret := "rs",
    accessTokenExpires := 900, refreshTokenExpires := 7200 }

/-- Fixture: a user lookup that always finds user 7. -/
def lookupFix : String → Option Nat := fun _ => some 7

/-- Fixture: the same attempt with a single try remaining. -/
def attLast : AuthAttempt := { attAlice with attemptLeft := 1 }

/-- Fixture: a verification request with the wrong code. -/
def dtoWrong : CreateCheckTelegramCodeRequestDTO :=
  { id := 1, telegramUsername := "alice", code := "000000" }

/-- Fixture: a verification request with the right code. -/
def dtoRight : CreateCheckTelegramCodeRequestDTO :=
  { id := 1, telegramUsername := "alice", code := "123456" }

/-- Fixture: version 1 of a published (non-draft) article. -/
def artIntroV1 : Article :=
  { id := 1, courseId := 10, title := "Intro", contentMD := "# md", contentTxt := "md",
    order := 1, version := 1, tags := ["tag"], isDraft := false,
    createdAt := 0, updatedAt := 0, deletedAt := none }

/-- Fixture: version 2 of the same article. -/
def artIntroV2 : Article := { artIntroV1 with id := 2, version := 2 }

/-- Fixture: the record inserted by cloning `artIntroV1` at time 100 with fresh
id 3, given the sibling versions 1 and 2. -/
def artIntroClone : Article :=
  { artIntroV1 with id := 3, version := 3, createdAt := 100, updatedAt := 100 }

/-- Fixture: a soft-deleted article. -/
def artDeleted : Article := { artIntroV1 with id := 4, deletedAt := some 5 }

/-- Fixture: a soft-deleted course. -/
def courseDeleted : Course :=
  { id := 1, title := "T", description := "D", authorId := 9, tags := ["x"],
    isPublished := true, createdAt := 0, updatedAt := 0, deletedAt := some 5 }

/-- Fixture: the empty course filter. -/
def fcNone : FilterCoursesDTO :=
  { title := none, tags := [], isPublished := none, authorId := none }

/-- Fixture: the empty article filter. -/
def faNone : FilterArticlesDTO :=
  { courseId := none, title := none, tags := [], isDraft := none, version := none }

/-! Helper lemmas about the list-level Mongo operations. -/

theorem updateFirst_cons_pos {α : Type} {p : α → Bool} {f : α → α} {x : α} {xs : List α}
    (hx : p x = true) : updateFirst p f (x :: xs) = f x :: xs := by
  simp [updateFirst, hx]

theorem updateFirst_cons_neg {α : Type} {p : α → Bool} {f : α → α} {x : α} {xs : List α}
    (hx : p x = false) : updateFirst p f (x :: xs) = x :: updateFirst p f xs := by
  simp [updateFirst, hx]

theorem deleteFirst_cons_pos {α : Type} {p : α → Bool} {x : α} {xs : List α}
    (hx : p x = true) : deleteFirst p (x :: xs) = xs := by
  simp [deleteFirst, hx]

theorem deleteFirst_cons_neg {α : Type} {p : α → Bool} {x : α} {xs : List α}
    (hx : p x = false) : deleteFirst p (x :: xs) = x :: deleteFirst p xs := by
  simp [deleteFirst, hx]

theorem mem_updateFirst {α : Type} {p : α → Bool} {f : α → α} {l : List α} {b : α}
    (h : b ∈ updateFirst p f l) : b ∈ l ∨ ∃ a, a ∈ l ∧ p a = true ∧ b = f a := by
  induction l with
  | nil => simp [updateFirst] at h
  | cons x xs ih =>
    cases hx : p x with
    | true =>
      rw [updateFirst_cons_pos hx, List.mem_cons] at h
      rcases h with h | h
      · exact Or.inr ⟨x, List.mem_cons_self x xs, hx, h⟩
      · exact Or.inl (List.mem_cons_of_mem _ h)
    | false =>
      rw [updateFirst_cons_neg hx, List.mem_cons] at h
      rcases h with h | h
      · exact Or.inl (h ▸ List.mem_cons_self x xs)
      · rcases ih h with h2 | ⟨a, ha, hpa, hb⟩
        · exact Or.inl (List.mem_cons_of_mem _ h2)
        · exact Or.inr ⟨a, List.mem_cons_of_mem _ ha, hpa, hb⟩

theorem mem_deleteFirst {α : Type} {p : α → Bool} {l : List α} {b : α}
    (h : b ∈ deleteFirst p l) : b ∈ l := by
  induction l with
  | nil => simp [deleteFirst] at h
  | cons x xs ih =>
    cases hx : p x with
    | true =>
      rw [deleteFirst_cons_pos hx] at h
      exact List.mem_cons_of_mem _ h
    | false =>
      rw [deleteFirst_cons_neg hx, List.mem_cons] at h
      rcases h with h | h
      · exact h ▸ List.mem_cons_self x xs
      · exact List.mem_cons_of_mem _ (ih h)

theorem find?_updateFirst {α : Type} {p : α → Bool} {f : α → α} {l : List α} {a : α}
    (hp : ∀ x, p (f x) = p x) (h : l.find? p = some a) :
    (updateFirst p f l).find? p = some (f a) := by
  induction l with
  | nil => simp at h
  | cons x xs ih =>
    cases hx : p x with
    | true =>
      rw [List.find?_cons_of_pos _ hx] at h
      have hxa : x = a := by injection h
      rw [updateFirst_cons_pos hx]
      have hfx : p (f x) = true := by rw [hp]; exact hx
      rw [List.find?_cons_of_pos _ hfx, hxa]
    | false =>
      have hx' : ¬ p x = true := by simp [hx]
      rw [List.find?_cons_of_neg _ hx'] at h
      rw [updateFirst_cons_neg hx, List.find?_cons_of_neg _ hx']
      exact ih h

theorem find?_deleteFirst_id_nodup (s : List AuthAttempt) (i : Nat)
    (hn : (s.map AuthAttempt.id).Nodup) :
    (deleteFirst (fun a => a.id == i) s).find? (fun a => a.id == i) = none := by
  induction s with
  | nil => rfl
  | cons x xs ih =>
    rw [List.map_cons, List.nodup_cons] at hn
    obtain ⟨hx, hxs⟩ := hn
    cases hxi : (x.id == i) with
    | true =>
      rw [deleteFirst_cons_pos (α := AuthAttempt) (p := fun a => a.id == i) hxi, List.find?_eq_none]
      intro b hb hbi
      apply hx
      have h1 : x.id = i := by simpa using hxi
      have h2 : b.id = i := by simpa using hbi
      exact List.mem_map.mpr ⟨b, hb, by rw [h2, h1]⟩
    | false =>
      rw [deleteFirst_cons_neg (α := AuthAttempt) (p := fun a => a.id == i) hxi]
      simp [hxi, ih hxs]

theorem authGetByID_eq_ok {s : List AuthAttempt} {i : Nat} {a : AuthAttempt} :
    authGetByID s i = Except.ok a ↔ s.find? (fun x => x.id == i) = some a := by
  unfold authGetByID
  cases h : s.find? (fun x => x.id == i) <;> simp

/-! Evaluation lemmas for the auth service. -/

theorem fetch_facts {s : List AuthAttempt} {i : Nat} {a : AuthAttempt}
    (h : authGetByID s i = Except.ok a) :
    a ∈ s ∧ a.id = i ∧ s.any (fun x => x.id == a.id) = true ∧
      s.find? (fun x => x.id == a.id) = some a := by
  have hf := authGetByID_eq_ok.mp h
  have hmem := List.mem_of_find?_eq_some hf
  have hpa : (a.id == i) = true := List.find?_some (l := s) (p := fun x => x.id == i) hf
  have hid : a.id = i := by simpa using hpa
  refine ⟨hmem, hid, ?_, ?_⟩
  · exact List.any_eq_true.mpr ⟨a, hmem, by simp⟩
  · simpa only [← hid] using hf

theorem performCodeCheck_exhausted (s : List AuthAttempt) (a : AuthAttempt)
    (code : String) (now : Int) (hleft : a.attemptLeft ≤ 0) :
    performCodeCheck s a code now = (Except.error AuthError.invalidCode, s, []) := by
  simp only [performCodeCheck]
  rw [if_pos hleft]

theorem performCodeCheck_correct (s : List AuthAttempt) (a : AuthAttempt)
    (code : String) (now : Int)
    (hmem : s.any (fun x => x.id == a.id) = true)
    (hleft : 0 < a.attemptLeft) (hcode : a.code = code) :
    performCodeCheck s a code now =
      (Except.ok (),
       updateFirst (fun x => x.id == a.id)
         (applyAuthUpdate { success := true, attemptLeft := none } now) s,
       [WriteOp.update a.id { success := true, attemptLeft := none }]) := by
  have hu : authUpdate s a.id { success := true, attemptLeft := none } now =
      Except.ok (updateFirst (fun x => x.id == a.id)
        (applyAuthUpdate { success := true, attemptLeft := none } now) s) := by
    unfold authUpdate
    rw [if_neg (by simp), if_pos hmem]
  simp only [performCodeCheck]
  rw [if_neg (not_le.mpr hleft), if_pos hcode, hu]

theorem performCodeCheck_wrong_delete (s : List AuthAttempt) (a : AuthAttempt)
    (code : String) (now : Int)
    (hmem : s.any (fun x => x.id == a.id) = true)
    (h1 : a.attemptLeft = 1) (hw : a.code ≠ code) :
    performCodeCheck s a code now =
      (Except.error AuthError.invalidCode,
       deleteFirst (fun x => x.id == a.id) s,
       [WriteOp.delete a.id]) := by
  have hd : authDelete s a.id =
      Except.ok (deleteFirst (fun x => x.id == a.id) s) := by
    unfold authDelete
    rw [if_pos hmem]
  simp only [performCodeCheck]
  rw [if_neg (by omega : ¬ a.attemptLeft ≤ 0), if_neg hw,
    if_pos (by omega : a.attemptLeft - 1 = 0), hd]

theorem performCodeCheck_wrong_decrement (s : List AuthAttempt) (a : AuthAttempt)
    (code : String) (now : Int)
    (hmem : s.any (fun x => x.id == a.id) = true)
    (h1 : 1 < a.attemptLeft) (hw : a.code ≠ code) :
    performCodeCheck s a code now =
      (Except.error AuthError.invalidCode,
       updateFirst (fun x => x.id == a.id)
         (applyAuthUpdate { success := false, attemptLeft := some (a.attemptLeft - 1) } now) s,
       [WriteOp.update a.id { success := false, attemptLeft := some (a.attemptLeft - 1) }]) := by
  have hu : authUpdate s a.id { success := false, attemptLeft := some (a.attemptLeft - 1) } now =
      Except.ok (updateFirst (fun x => x.id == a.id)
        (applyAuthUpdate { success := false, attemptLeft := some (a.attemptLeft - 1) } now) s) := by
    unfold authUpdate
    rw [if_neg (by simp), if_pos hmem]
  simp only [performCodeCheck]
  rw [if_neg (by omega : ¬ a.attemptLeft ≤ 0), if_neg hw,
    if_neg (by omega : ¬ a.attemptLeft - 1 = 0), hu]

theorem checkTelegramCode_mismatch (s : List AuthAttempt)
    (dto : CreateCheckTelegramCodeRequestDTO) (now : Int)
    (ul : String → Option Nat) (cfg : Config) (a : AuthAttempt)
    (hfetch : authGetByID s dto.id = Except.ok a)
    (hne : a.identifierUsed ≠ dto.telegramUsername) :
    checkTelegramCode s dto now ul cfg =
      (Except.error AuthError.wrongTelegramUsername, s, []) := by
  unfold checkTelegramCode
  rw [hfetch]
  dsimp only
  rw [if_pos hne]

theorem checkTelegramCode_eq_of_fetch (s : List AuthAttempt)
    (dto : CreateCheckTelegramCodeRequestDTO) (now : Int)
    (ul : String → Option Nat) (cfg : Config) (a : AuthAttempt)
    (hfetch : authGetByID s dto.id = Except.ok a)
    (hid : a.identifierUsed = dto.telegramUsername) :
    checkTelegramCode s dto now ul cfg =
      ((match (performCodeCheck s a dto.code now).1 with
        | Except.error e => Except.error e
        | Except.ok _ =>
          match ul dto.telegramUsername with
          | none => Except.error AuthError.userNotFound
          | some uid => Except.ok (generateTokenPair cfg uid)),
       (performCodeCheck s a dto.code now).2.1,
       (performCodeCheck s a dto.code now).2.2) := by
  unfold checkTelegramCode
  rw [hfetch]
  dsimp only
  rw [if_neg (by simp [hid])]
  rcases hp : performCodeCheck s a dto.code now with ⟨r, s2, ops⟩
  cases r with
  | error e => simp
  | ok u =>
    cases hul : ul dto.telegramUsername <;> simp [hul]

/-! Success monotonicity of the persistence operations. -/

theorem successDescends_refl (s : List AuthAttempt) : SuccessDescends s s :=
  fun b hb => ⟨b, hb, rfl, id⟩

theorem successDescends_trans {s t u : List AuthAttempt}
    (h1 : SuccessDescends s t) (h2 : SuccessDescends t u) : SuccessDescends s u := by
  intro b hb
  obtain ⟨m, hm, hmid, hms⟩ := h2 b hb
  obtain ⟨a, ha, haid, has⟩ := h1 m hm
  exact ⟨a, ha, haid.trans hmid, fun hs => hms (has hs)⟩

theorem successDescends_updateFirst (s : List AuthAttempt) (i : Nat)
    (dto : UpdateAuthAttemptDTO) (now : Int) :
    SuccessDescends s (updateFirst (fun x => x.id == i) (applyAuthUpdate dto now) s) := by
  intro b hb
  rcases mem_updateFirst hb with h | ⟨a, ha, hpa, hb2⟩
  · exact ⟨b, h, rfl, id⟩
  · refine ⟨a, ha, ?_, ?_⟩
    · rw [hb2]; rfl
    · intro hs
      rw [hb2]
      show (if dto.success then true else a.success) = true
      cases hd : dto.success
      · simpa using hs
      · rfl

theorem successDescends_authUpdate_ok {s s2 : List AuthAttempt} {i : Nat}
    {dto : UpdateAuthAttemptDTO} {now : Int}
    (h : authUpdate s i dto now = Except.ok s2) : SuccessDescends s s2 := by
  unfold authUpdate at h
  split at h
  · rw [Except.ok.injEq] at h
    subst h
    exact successDescends_refl s
  · split at h
    · rw [Except.ok.injEq] at h
      subst h
      exact successDescends_updateFirst s i dto now
    · simp at h

theorem successDescends_authDelete_ok {s s2 : List AuthAttempt} {i : Nat}
    (h : authDelete s i = Except.ok s2) : SuccessDescends s s2 := by
  unfold authDelete at h
  split at h
  · rw [Except.ok.injEq] at h
    subst h
    intro b hb
    exact ⟨b, mem_deleteFirst hb, rfl, id⟩
  · simp at h

theorem successDescends_performCodeCheck (s : List AuthAttempt) (a : AuthAttempt)
    (code : String) (now : Int) :
    SuccessDescends s (performCodeCheck s a code now).2.1 := by
  unfold performCodeCheck
  dsimp only
  split
  · exact successDescends_refl s
  · split
    · split
      · rename_i s2 heq
        exact successDescends_authUpdate_ok heq
      · exact successDescends_refl s
    · split
      · split
        · rename_i s2 heq
          exact successDescends_authDelete_ok heq
        · exact successDescends_refl s
      · split
        · rename_i s2 heq
          exact successDescends_authUpdate_ok heq
        · exact successDescends_refl s

theorem successDescends_checkTelegramCode (s : List AuthAttempt)
    (dto : CreateCheckTelegramCodeRequestDTO) (now : Int)
    (ul : String → Option Nat) (cfg : Config) :
    SuccessDescends s (checkTelegramCode s dto now ul cfg).2.1 := by
  unfold checkTelegramCode
  split
  · exact successDescends_refl s
  · rename_i att hfetch
    split
    · exact successDescends_refl s
    · split
      · rename_i e s2 ops heq
        have h2 := successDescends_performCodeCheck s att dto.code now
        rw [heq] at h2
        exact h2
      · rename_i u s2 ops heq
        have h2 := successDescends_performCodeCheck s att dto.code now
        rw [heq] at h2
        split
        · exact h2
        · exact h2

theorem successDescends_applyUpdateCalls (calls : List (Nat × UpdateAuthAttemptDTO × Int)) :
    ∀ s : List AuthAttempt, SuccessDescends s (applyUpdateCalls s calls) := by
  induction calls with
  | nil => intro s; exact successDescends_refl s
  | cons c cs ih =>
    intro s
    have hstep : SuccessDescends s
        (match authUpdate s c.1 c.2.1 c.2.2 with
         | Except.ok st2 => st2
         | Except.error _ => s) := by
      cases h : authUpdate s c.1 c.2.1 c.2.2 with
      | ok st2 => exact successDescends_authUpdate_ok h
      | error e => exact successDescends_refl s
    have hrest := ih
      (match authUpdate s c.1 c.2.1 c.2.2 with
       | Except.ok st2 => st2
       | Except.error _ => s)
    have hcons : applyUpdateCalls s (c :: cs) =
        applyUpdateCalls
          (match authUpdate s c.1 c.2.1 c.2.2 with
           | Except.ok st2 => st2
           | Except.error _ => s) cs := rfl
    rw [hcons]
    exact successDescends_trans hstep hrest

/-! Claim theorems. -/

/-- C7: the public issuance view is the record of exactly the attempt id, the
identifier and a wait-until timestamp equal to createdAt + ttl; it never
carries the code: an attempt identical except for its code value has the same
view. -/
theorem issuance_view_independent_of_code (a : AuthAttempt) (c : String) :
    a.toReadTelegramCodeRequestDTO =
      { id := a.id, telegramUsername := a.identifierUsed, waitUntil := a.createdAt + a.ttl } ∧
    ({ a with code := c } : AuthAttempt).toReadTelegramCodeRequestDTO =
      a.toReadTelegramCodeRequestDTO :=
  ⟨rfl, rfl⟩

/-- C1 (evaluation at the failing input): cloning the published version-1
article while versions 1 and 2 exist inserts a clone with a fresh id and
version 3, preserves course and title, leaves both originals unmodified — but
copies the draft flag from the original instead of resetting it: the clone of
a non-draft article is itself not a draft, contradicting the documented
"sets draft = true" behaviour. -/
theorem clone_draft_flag_not_reset :
    cloneWithIncrementedVersion [artIntroV1, artIntroV2] 1 3 100 =
      Except.ok ([artIntroV1, artIntroV2, artIntroClone], artIntroClone.toReadDTO) ∧
    artIntroClone.version = 3 ∧
    artIntroClone.courseId = artIntroV1.courseId ∧
    artIntroClone.title = artIntroV1.title ∧
    artIntroV1.isDraft = false ∧
    artIntroClone.isDraft = false := by
  decide

/-- C9 (counterexample): DeleteByID on a record that is already soft-deleted
(at time 5) succeeds and overwrites the deletion timestamp, rather than
failing with NotFound as the claim states. -/
theorem courseDeleteByID_already_deleted_cex :
    courseDeleted.deletedAt ≠ none ∧
    courseDeleteByID [courseDeleted] 1 10 =
      Except.ok [{ courseDeleted with deletedAt := some 10 }] := by
  decide

/-- C2 (counterexample): with the attempt successfully fetched by id, the
identifier-mismatch branch performs zero persistence writes or deletes, not
exactly one as the claim states. -/
theorem checkTelegramCode_mismatch_zero_writes_cex :
    authGetByID [attAlice] 1 = Except.ok attAlice ∧
    checkTelegramCode [attAlice]
        { id := 1, telegramUsername := "bob", code := "123456" } 10 lookupFix cfgFix
      = (Except.error AuthError.wrongTelegramUsername, [attAlice], []) := by
  decide

/-- C3 (counterexample): an attempt whose success flag is already true is not
terminal: a subsequent CheckTelegramCode with a wrong code still issues a
persistence write that decrements attemptLeft on that very record. -/
theorem checkTelegramCode_success_not_terminal_cex :
    (checkTelegramCode [{ attAlice with success := true }]
        { id := 1, telegramUsername := "alice", code := "000000" } 50 lookupFix cfgFix).2.1
      = [{ attAlice with success := true, attemptLeft := 2, updatedAt := 50 }] ∧
    (checkTelegramCode [{ attAlice with success := true }]
        { id := 1, telegramUsername := "alice", code := "000000" } 50 lookupFix cfgFix).2.2
      = [WriteOp.update 1 { success := false, attemptLeft := some 2 }] := by
  decide

/-- C2 (amended): after the attempt is successfully fetched by id, the
identifier-mismatch and attempts-exhausted branches perform no persistence
write or delete at all, and every branch that passes both checks (correct
code, wrong code with decrement, wrong code with deletion) performs exactly
one. -/
theorem checkTelegramCode_write_discipline (s : List AuthAttempt)
    (dto : CreateCheckTelegramCodeRequestDTO) (now : Int)
    (ul : String → Option Nat) (cfg : Config) (a : AuthAttempt)
    (hfetch : authGetByID s dto.id = Except.ok a) :
    (a.identifierUsed ≠ dto.telegramUsername →
      (checkTelegramCode s dto now ul cfg).2.2 = []) ∧
    (a.identifierUsed = dto.telegramUsername → a.attemptLeft ≤ 0 →
      (checkTelegramCode s dto now ul cfg).2.2 = []) ∧
    (a.identifierUsed = dto.telegramUsername → 0 < a.attemptLeft →
      ((checkTelegramCode s dto now ul cfg).2.2).length = 1) := by
  obtain ⟨hmem, hids, hany, hfind⟩ := fetch_facts hfetch
  refine ⟨fun hne => ?_, fun hid hex => ?_, fun hid hpos => ?_⟩
  · rw [checkTelegramCode_mismatch s dto now ul cfg a hfetch hne]
  · rw [checkTelegramCode_eq_of_fetch s dto now ul cfg a hfetch hid]
    dsimp only
    rw [performCodeCheck_exhausted s a dto.code now hex]
  · rw [checkTelegramCode_eq_of_fetch s dto now ul cfg a hfetch hid]
    dsimp only
    by_cases hc : a.code = dto.code
    · rw [performCodeCheck_correct s a dto.code now hany hpos hc]
      rfl
    · by_cases h1 : a.attemptLeft = 1
      · rw [performCodeCheck_wrong_delete s a dto.code now hany h1 hc]
        rfl
      · rw [performCodeCheck_wrong_decrement s a dto.code now hany (by omega) hc]
        rfl

/-- C2 witness: a correct-code verification on a fetched attempt issues
exactly one persistence write. -/
theorem checkTelegramCode_write_discipline_witness :
    ((checkTelegramCode [attAlice] dtoRight 10 lookupFix cfgFix).2.2).length = 1 :=
  (checkTelegramCode_write_discipline [attAlice] dtoRight 10 lookupFix cfgFix attAlice
    (by decide)).2.2 (by decide) (by decide)

/-- C3 (amended): success=true is not a terminal state — a later verification
call may still update or delete the record — but the flow never moves success
back to false: every record present after a CheckTelegramCode call descends
from a same-id record of the previous store whose true success flag is
preserved. -/
theorem checkTelegramCode_never_unsets_success (s : List AuthAttempt)
    (dto : CreateCheckTelegramCodeRequestDTO) (now : Int)
    (ul : String → Option Nat) (cfg : Config) :
    ∀ b ∈ (checkTelegramCode s dto now ul cfg).2.1,
      ∃ a ∈ s, a.id = b.id ∧ (a.success = true → b.success = true) :=
  successDescends_checkTelegramCode s dto now ul cfg

/-- C3 witness: the decremented record left by a wrong-code verification of an
already-successful attempt still has success = true. -/
theorem checkTelegramCode_never_unsets_success_witness :
    ∃ a ∈ [{ attAlice with success := true }],
      a.id = ({ attAlice with success := true, attemptLeft := 2, updatedAt := 50 } : AuthAttempt).id ∧
      (a.success = true →
        ({ attAlice with success := true, attemptLeft := 2, updatedAt := 50 } : AuthAttempt).success = true) :=
  checkTelegramCode_never_unsets_success [{ attAlice with success := true }]
    dtoWrong 50 lookupFix cfgFix
    { attAlice with success := true, attemptLeft := 2, updatedAt := 50 } (by decide)

/-- C10: the repository Update writes the success field only when the Success
flag of the DTO is true — per update the stored flag becomes the disjunction
of the DTO flag and the old value — so under every sequence of Update calls
(including the wrong-code decrement, which passes Success false) the success
flag moves only from false to true, never back. -/
theorem authUpdate_success_monotone (s : List AuthAttempt)
    (calls : List (Nat × UpdateAuthAttemptDTO × Int)) :
    (∀ (dto : UpdateAuthAttemptDTO) (now : Int) (a : AuthAttempt),
        (applyAuthUpdate dto now a).success = (dto.success || a.success)) ∧
    ∀ b ∈ applyUpdateCalls s calls,
      ∃ a ∈ s, a.id = b.id ∧ (a.success = true → b.success = true) := by
  constructor
  · intro dto now a
    show (if dto.success then true else a.success) = (dto.success || a.success)
    cases dto.success <;> rfl
  · exact successDescends_applyUpdateCalls calls s

/-- C10 witness: a successful record run through a decrementing Update call
keeps success = true. -/
theorem authUpdate_success_monotone_witness :
    ∃ a ∈ [{ attAlice with success := true }],
      a.id = ({ attAlice with success := true, attemptLeft := 2, updatedAt := 5 } : AuthAttempt).id ∧
      (a.success = true →
        ({ attAlice with success := true, attemptLeft := 2, updatedAt := 5 } : AuthAttempt).success = true) :=
  (authUpdate_success_monotone [{ attAlice with success := true }]
      [(1, { success := false, attemptLeft := some 2 }, 5)]).2
    { attAlice with success := true, attemptLeft := 2, updatedAt := 5 } (by decide)

/-- C4: verifying a wrong code on an attempt with a matching identifier: when
attemptLeft is 1 the record is deleted outright and the call fails
InvalidCode, and every later verification against the same attempt id fails
NotFound; when attemptLeft exceeds 1 the decremented counter is persisted on
the record and the call still fails InvalidCode. -/
theorem checkTelegramCode_wrong_code_exhaustion (s : List AuthAttempt)
    (dto : CreateCheckTelegramCodeRequestDTO) (now : Int)
    (ul : String → Option Nat) (cfg : Config) (a : AuthAttempt)
    (hnodup : (s.map AuthAttempt.id).Nodup)
    (hfetch : authGetByID s dto.id = Except.ok a)
    (hid : a.identifierUsed = dto.telegramUsername)
    (hwrong : a.code ≠ dto.code) :
    (a.attemptLeft = 1 →
      (checkTelegramCode s dto now ul cfg).1 = Except.error AuthError.invalidCode ∧
      authGetByID (checkTelegramCode s dto now ul cfg).2.1 dto.id
        = Except.error AuthError.notFound ∧
      (∀ (dto2 : CreateCheckTelegramCodeRequestDTO), dto2.id = dto.id →
        ∀ (now2 : Int) (ul2 : String → Option Nat) (cfg2 : Config),
          (checkTelegramCode (checkTelegramCode s dto now ul cfg).2.1 dto2 now2 ul2 cfg2).1
            = Except.error AuthError.notFound)) ∧
    (1 < a.attemptLeft →
      (checkTelegramCode s dto now ul cfg).1 = Except.error AuthError.invalidCode ∧
      authGetByID (checkTelegramCode s dto now ul cfg).2.1 dto.id
        = Except.ok { a with attemptLeft := a.attemptLeft - 1, updatedAt := now }) := by
  obtain ⟨hmem, hids, hany, hfind⟩ := fetch_facts hfetch
  constructor
  · intro h1
    rw [checkTelegramCode_eq_of_fetch s dto now ul cfg a hfetch hid]
    dsimp only
    rw [performCodeCheck_wrong_delete s a dto.code now hany h1 hwrong]
    dsimp only
    have hnone : (deleteFirst (fun x => x.id == a.id) s).find? (fun x => x.id == a.id)
        = none := find?_deleteFirst_id_nodup s a.id hnodup
    have hget : authGetByID (deleteFirst (fun x => x.id == a.id) s) dto.id
        = Except.error AuthError.notFound := by
      unfold authGetByID
      simp only [← hids]
      rw [hnone]
    refine ⟨rfl, hget, ?_⟩
    intro dto2 hdto2 now2 ul2 cfg2
    have hget2 : authGetByID (deleteFirst (fun x => x.id == a.id) s) dto2.id
        = Except.error AuthError.notFound := by rw [hdto2]; exact hget
    unfold checkTelegramCode
    rw [hget2]
  · intro hgt
    rw [checkTelegramCode_eq_of_fetch s dto now ul cfg a hfetch hid]
    dsimp only
    rw [performCodeCheck_wrong_decrement s a dto.code now hany hgt hwrong]
    dsimp only
    refine ⟨rfl, ?_⟩
    have hfu := find?_updateFirst (p := fun x => x.id == a.id)
      (f := applyAuthUpdate { success := false, attemptLeft := some (a.attemptLeft - 1) } now)
      (fun x => rfl) hfind
    have hrec : applyAuthUpdate { success := false, attemptLeft := some (a.attemptLeft - 1) } now a
        = { a with attemptLeft := a.attemptLeft - 1, updatedAt := now } := by
      simp [applyAuthUpdate]
    unfold authGetByID
    simp only [← hids]
    rw [hfu, hrec]

/-- C4 witness: wrong code with one attempt left on a concrete store — the
call fails InvalidCode, the record is gone, and a retry fails NotFound. -/
theorem checkTelegramCode_wrong_code_exhaustion_witness :
    (checkTelegramCode [attLast] dtoWrong 10 lookupFix cfgFix).1
      = Except.error AuthError.invalidCode ∧
    authGetByID (checkTelegramCode [attLast] dtoWrong 10 lookupFix cfgFix).2.1 1
      = Except.error AuthError.notFound ∧
    (checkTelegramCode (checkTelegramCode [attLast] dtoWrong 10 lookupFix cfgFix).2.1
        dtoRight 20 lookupFix cfgFix).1 = Except.error AuthError.notFound := by
  have h := (checkTelegramCode_wrong_code_exhaustion [attLast] dtoWrong 10 lookupFix cfgFix
    attLast (by decide) (by decide) (by decide) (by decide)).1 (by decide)
  exact ⟨h.1, h.2.1, h.2.2 dtoRight rfl 20 lookupFix cfgFix⟩

/-- C6: verifying the correct code on an attempt with a matching identifier
and attempts remaining persists success = true and does not decrement
attemptLeft: the stored record keeps exactly its previous counter. -/
theorem checkTelegramCode_correct_preserves_attemptLeft (s : List AuthAttempt)
    (dto : CreateCheckTelegramCodeRequestDTO) (now : Int)
    (ul : String → Option Nat) (cfg : Config) (a : AuthAttempt)
    (hfetch : authGetByID s dto.id = Except.ok a)
    (hid : a.identifierUsed = dto.telegramUsername)
    (hpos : 0 < a.attemptLeft)
    (hcode : a.code = dto.code) :
    authGetByID (checkTelegramCode s dto now ul cfg).2.1 dto.id
      = Except.ok { a with success := true, updatedAt := now } := by
  obtain ⟨hmem, hids, hany, hfind⟩ := fetch_facts hfetch
  rw [checkTelegramCode_eq_of_fetch s dto now ul cfg a hfetch hid]
  dsimp only
  rw [performCodeCheck_correct s a dto.code now hany hpos hcode]
  dsimp only
  have hfu := find?_updateFirst (p := fun x => x.id == a.id)
    (f := applyAuthUpdate { success := true, attemptLeft := none } now)
    (fun x => rfl) hfind
  have hrec : applyAuthUpdate { success := true, attemptLeft := none } now a
      = { a with success := true, updatedAt := now } := by
    simp [applyAuthUpdate]
  unfold authGetByID
  simp only [← hids]
  rw [hfu, hrec]

/-- C6 witness: verifying the right code on the concrete pending attempt
stores success = true with attemptLeft still 3. -/
theorem checkTelegramCode_correct_preserves_attemptLeft_witness :
    authGetByID (checkTelegramCode [attAlice] dtoRight 10 lookupFix cfgFix).2.1 1
      = Except.ok { attAlice with success := true, updatedAt := 10 } :=
  checkTelegramCode_correct_preserves_attemptLeft [attAlice] dtoRight 10 lookupFix cfgFix
    attAlice (by decide) (by decide) (by decide) (by decide)

/-! Issuance lemmas. -/

theorem chooseLatest_isSome (acc : Option AuthAttempt) (a : AuthAttempt) :
    (chooseLatest acc a).isSome = true := by
  cases acc with
  | none => rfl
  | some b =>
    unfold chooseLatest
    dsimp only
    split <;> rfl

theorem foldl_chooseLatest_isSome (l : List AuthAttempt) :
    ∀ acc : Option AuthAttempt,
      ((l.foldl chooseLatest acc).isSome = true ↔ (acc.isSome = true ∨ l ≠ [])) := by
  induction l with
  | nil => intro acc; simp
  | cons x xs ih =>
    intro acc
    rw [List.foldl_cons, ih (chooseLatest acc x)]
    simp [chooseLatest_isSome acc x]

theorem getByTelegramUsername_isSome_iff (s : List AuthAttempt) (u : String) (now : Int) :
    (getByTelegramUsername s u now).isSome = true ↔
      ∃ a ∈ s, isValidAttemptFor u now a = true := by
  unfold getByTelegramUsername
  rw [foldl_chooseLatest_isSome]
  have hne : s.filter (isValidAttemptFor u now) ≠ [] ↔
      ∃ a ∈ s, isValidAttemptFor u now a = true := by
    constructor
    · intro h
      rcases hf : s.filter (isValidAttemptFor u now) with _ | ⟨x, xs⟩
      · exact absurd hf h
      · have hx : x ∈ s.filter (isValidAttemptFor u now) := by
          rw [hf]; exact List.mem_cons_self x xs
        rcases List.mem_filter.mp hx with ⟨hxs, hpx⟩
        exact ⟨x, hxs, hpx⟩
    · rintro ⟨a, ha, hpa⟩ hnil
      have hmem : a ∈ s.filter (isValidAttemptFor u now) := List.mem_filter.mpr ⟨ha, hpa⟩
      rw [hnil] at hmem
      exact absurd hmem (List.not_mem_nil a)
  rw [← hne]
  simp

/-- C5: issuance fails AlreadyExists exactly when a valid attempt for the
identifier exists — identifier match, attempts remaining, created within the
TTL window (every attempt this flow stores is Telegram-typed) — and with no
valid attempt it succeeds, inserting a fresh attempt with
attemptLeft = MaxAttempts and success = false and returning the public view
with waitUntil = now + AttemptTTL. -/
theorem requestTelegramCode_issuance (s : List AuthAttempt)
    (dto : CreateTelegramCodeRequestDTO) (newId : Nat) (code : String) (now : Int) :
    ((∃ a ∈ s, isValidAttemptFor dto.telegramUsername now a = true) →
      requestTelegramCode s dto newId code now = (Except.error AuthError.alreadyExists, s)) ∧
    ((∀ a ∈ s, isValidAttemptFor dto.telegramUsername now a = false) →
      requestTelegramCode s dto newId code now =
        (Except.ok { id := newId, telegramUsername := dto.telegramUsername,
                     waitUntil := now + AttemptTTL },
         s ++ [{ id := newId, identifierUsed := dto.telegramUsername,
                 typ := AuthType.telegram, code := code, success := false,
                 attemptLeft := MaxAttempts, ttl := AttemptTTL,
                 createdAt := now, updatedAt := now }])) ∧
    ((∀ a ∈ s, a.typ = AuthType.telegram) →
      ((requestTelegramCode s dto newId code now).1 = Except.error AuthError.alreadyExists ↔
        ∃ a ∈ s, a.identifierUsed = dto.telegramUsername ∧ 0 < a.attemptLeft ∧
          now - AttemptTTL ≤ a.createdAt)) := by
  refine ⟨fun hex => ?_, fun hnone => ?_, fun htel => ?_⟩
  · have hs := (getByTelegramUsername_isSome_iff s dto.telegramUsername now).mpr hex
    cases hg : getByTelegramUsername s dto.telegramUsername now with
    | none => rw [hg] at hs; exact absurd hs (by simp)
    | some x =>
      unfold requestTelegramCode
      rw [hg]
  · have hg : getByTelegramUsername s dto.telegramUsername now = none := by
      cases hg2 : getByTelegramUsername s dto.telegramUsername now with
      | none => rfl
      | some x =>
        have hs := (getByTelegramUsername_isSome_iff s dto.telegramUsername now).mp
          (by rw [hg2]; rfl)
        obtain ⟨a, ha, hpa⟩ := hs
        rw [hnone a ha] at hpa
        exact absurd hpa (by simp)
    unfold requestTelegramCode
    rw [hg]
    rfl
  · cases hg : getByTelegramUsername s dto.telegramUsername now with
    | some x =>
      obtain ⟨a, ha, hval⟩ := (getByTelegramUsername_isSome_iff s dto.telegramUsername now).mp
        (by rw [hg]; rfl)
      have hfields : a.identifierUsed = dto.telegramUsername ∧ 0 < a.attemptLeft ∧
          now - AttemptTTL ≤ a.createdAt := by
        simp only [isValidAttemptFor, Bool.and_eq_true, beq_iff_eq, decide_eq_true_eq] at hval
        exact ⟨hval.1.1.1, hval.1.2, hval.2⟩
      unfold requestTelegramCode
      rw [hg]
      exact ⟨fun _ => ⟨a, ha, hfields⟩, fun _ => rfl⟩
    | none =>
      have hnotex : ¬ ∃ a ∈ s, isValidAttemptFor dto.telegramUsername now a = true := by
        rw [← getByTelegramUsername_isSome_iff, hg]
        simp
      unfold requestTelegramCode
      rw [hg]
      dsimp only
      constructor
      · intro h
        exact absurd h (by simp)
      · rintro ⟨a, ha, hidf, hlt, hle⟩
        exfalso
        exact hnotex ⟨a, ha, by
          simp only [isValidAttemptFor, Bool.and_eq_true, beq_iff_eq, decide_eq_true_eq]
          exact ⟨⟨⟨hidf, htel a ha⟩, hlt⟩, hle⟩⟩

/-- C5 witness: issuance on a store with a valid attempt for alice fails
AlreadyExists, and issuance for bob on an empty store inserts a fresh attempt
with three tries and success = false. -/
theorem requestTelegramCode_issuance_witness :
    requestTelegramCode [attAlice] { telegramUsername := "alice" } 5 "222222" 10
      = (Except.error AuthError.alreadyExists, [attAlice]) ∧
    requestTelegramCode [] { telegramUsername := "bob" } 6 "333333" 0
      = (Except.ok { id := 6, telegramUsername := "bob", waitUntil := 0 + AttemptTTL },
         [{ id := 6, identifierUsed := "bob", typ := AuthType.telegram, code := "333333",
            success := false, attemptLeft := MaxAttempts, ttl := AttemptTTL,
            createdAt := 0, updatedAt := 0 }]) :=
  ⟨(requestTelegramCode_issuance [attAlice] { telegramUsername := "alice" } 5 "222222" 10).1
      ⟨attAlice, by decide, by decide⟩,
   (requestTelegramCode_issuance [] { telegramUsername := "bob" } 6 "333333" 0).2.1
      (by decide)⟩

/-- C8: a soft-deleted record is invisible to reads: GetByID fails NotFound
whenever every record with the requested id is soft-deleted, and Find —
under any filter — only ever returns views of records whose deletedAt is
unset, for courses and for articles alike. -/
theorem softDeleted_excluded (cs : List Course) (arts : List Article)
    (ci ai : Nat) (fc : FilterCoursesDTO) (fa : FilterArticlesDTO)
    (hc : ∀ c ∈ cs, c.id = ci → c.deletedAt ≠ none)
    (ha : ∀ a ∈ arts, a.id = ai → a.deletedAt ≠ none) :
    courseGetByID cs ci = Except.error CourseError.notFound ∧
    articleGetByID arts ai = Except.error ArticleError.notFound ∧
    (∀ dto ∈ courseFind cs fc, ∃ c ∈ cs, c.deletedAt = none ∧ dto = c.toReadDTO) ∧
    (∀ dto ∈ articleFind arts fa, ∃ a ∈ arts, a.deletedAt = none ∧ dto = a.toReadDTO) := by
  refine ⟨?_, ?_, ?_, ?_⟩
  · unfold courseGetByID
    have hnone : cs.find? (fun c => c.id == ci && c.deletedAt == none) = none := by
      rw [List.find?_eq_none]
      intro x hx hpx
      simp only [Bool.and_eq_true, beq_iff_eq] at hpx
      exact hc x hx hpx.1 hpx.2
    rw [hnone]
  · unfold articleGetByID
    have hnone : arts.find? (fun a => a.id == ai && a.deletedAt == none) = none := by
      rw [List.find?_eq_none]
      intro x hx hpx
      simp only [Bool.and_eq_true, beq_iff_eq] at hpx
      exact ha x hx hpx.1 hpx.2
    rw [hnone]
  · intro dto hdto
    unfold courseFind at hdto
    rcases List.mem_map.mp hdto with ⟨c, hcmem, hback⟩
    rcases List.mem_filter.mp hcmem with ⟨hcs, hmatch⟩
    refine ⟨c, hcs, ?_, hback.symm⟩
    unfold Course.matchesFind at hmatch
    simp only [Bool.and_eq_true, beq_iff_eq] at hmatch
    exact hmatch.1.1.1.1
  · intro dto hdto
    unfold articleFind at hdto
    rcases List.mem_map.mp hdto with ⟨a, hamem, hback⟩
    rcases List.mem_filter.mp hamem with ⟨has, hmatch⟩
    refine ⟨a, has, ?_, hback.symm⟩
    unfold Article.matchesFind at hmatch
    simp only [Bool.and_eq_true, beq_iff_eq] at hmatch
    exact hmatch.1.1.1

/-- C8 witness: the soft-deleted course and article fixtures are invisible to
GetByID and Find under the empty filters. -/
theorem softDeleted_excluded_witness :
    courseGetByID [courseDeleted] 1 = Except.error CourseError.notFound ∧
    articleGetByID [artDeleted] 4 = Except.error ArticleError.notFound ∧
    (∀ dto ∈ courseFind [courseDeleted] fcNone,
      ∃ c ∈ [courseDeleted], c.deletedAt = none ∧ dto = c.toReadDTO) ∧
    (∀ dto ∈ articleFind [artDeleted] faNone,
      ∃ a ∈ [artDeleted], a.deletedAt = none ∧ dto = a.toReadDTO) :=
  softDeleted_excluded [courseDeleted] [artDeleted] 1 4 fcNone faNone
    (by decide) (by decide)

/-- C9 (amended): DeleteByID stamps deletedAt on the first record carrying the
id and reports NotFound when no record with the id exists (or when the stamp
would change nothing); a record that is already soft-deleted with a different
deletion time is stamped again successfully instead of failing NotFound. -/
theorem deleteByID_sets_deletedAt (cs : List Course) (arts : List Article)
    (i j : Nat) (tn tm : Int) :
    ((∀ c ∈ cs, c.id ≠ i) → courseDeleteByID cs i tn = Except.error CourseError.notFound) ∧
    (∀ c, cs.find? (fun x => x.id == i) = some c → c.deletedAt ≠ some tn →
      ∃ cs2, courseDeleteByID cs i tn = Except.ok cs2 ∧
        cs2.find? (fun x => x.id == i) = some { c with deletedAt := some tn }) ∧
    ((∀ a ∈ arts, a.id ≠ j) → articleDeleteByID arts j tm = Except.error ArticleError.notFound) ∧
    (∀ a, arts.find? (fun x => x.id == j) = some a → a.deletedAt ≠ some tm →
      ∃ as2, articleDeleteByID arts j tm = Except.ok as2 ∧
        as2.find? (fun x => x.id == j) = some { a with deletedAt := some tm }) := by
  refine ⟨fun h => ?_, fun c hfind hne => ?_, fun h => ?_, fun a hfind hne => ?_⟩
  · unfold courseDeleteByID
    have hnone : cs.find? (fun x => x.id == i) = none := by
      rw [List.find?_eq_none]
      intro x hx hpx
      exact h x hx (by simpa using hpx)
    rw [hnone]
  · unfold courseDeleteByID
    rw [hfind]
    dsimp only
    rw [if_neg (by simpa using hne)]
    refine ⟨_, rfl, ?_⟩
    exact find?_updateFirst (α := Course) (p := fun x => x.id == i)
      (f := fun b => { b with deletedAt := some tn }) (fun x => rfl) hfind
  · unfold articleDeleteByID
    have hnone : arts.find? (fun x => x.id == j) = none := by
      rw [List.find?_eq_none]
      intro x hx hpx
      exact h x hx (by simpa using hpx)
    rw [hnone]
  · unfold articleDeleteByID
    rw [hfind]
    dsimp only
    rw [if_neg (by simpa using hne)]
    refine ⟨_, rfl, ?_⟩
    exact find?_updateFirst (α := Article) (p := fun x => x.id == j)
      (f := fun b => { b with deletedAt := some tm }) (fun x => rfl) hfind

/-- C9 witness: re-deleting the already-soft-deleted course stamps the new
time, and deleting a missing article id reports NotFound. -/
theorem deleteByID_sets_deletedAt_witness :
    (∃ cs2, courseDeleteByID [courseDeleted] 1 10 = Except.ok cs2 ∧
      cs2.find? (fun x => x.id == 1) = some { courseDeleted with deletedAt := some 10 }) ∧
    articleDeleteByID [artIntroV1] 99 7 = Except.error ArticleError.notFound :=
  ⟨(deleteByID_sets_deletedAt [courseDeleted] [artIntroV1] 1 99 10 7).2.1
      courseDeleted (by decide) (by decide),
   (deleteByID_sets_deletedAt [courseDeleted] [artIntroV1] 1 99 10 7).2.2.1
      (by decide)⟩

end Codeed
